import Mathlib

/-!
Shallow embedding of the `ruspiro-mailbox` crate (Raspberry Pi mailbox property
tag interface) and verification of its specification claims.

Embedding conventions:
- Rust `u32` values are `Nat`; wrapping `u32` arithmetic carries an explicit
  `% 2 ^ 32`; the bit operations `& 0xF` / `& 0xFFFFFFF0` / `|` of
  `interface.rs` are `Nat.land` / `Nat.lor` with the same literal masks.
- The declarative property-tag catalog of `src/propertytags/mod.rs` is encoded
  by the enum `PropertyTagId` together with the byte sizes of the request and
  response field structs and of the declared padding; `repr(C)` layout of the
  all-`u32`-field structs makes the request/response struct sizes the sums of
  their field sizes, the `Data` union size their maximum, and the
  `repr(C, packed)` tag struct size `12 + union + padding`.
- The compile-time `Cons`/`Empty` linked list of `mailboxbatch.rs` is the
  inductive `TagCons`; the trait-resolved `FindTag` lookup (the `Here` instance
  fires where the head type matches, the `Next` instance recurses into
  `previous`) is the recursive function `TagCons.findTag`, returning `none`
  where Rust trait resolution would fail to find an instance.
- The hardware exchange of `interface.rs` is modelled by passing the incoming
  FIFO as a list of 32-bit words (`mb_read`; an empty/exhausted list models the
  unbounded busy-wait never returning) and the co-processor as an oracle
  function from the sent buffer value to the reconstructed buffer value
  (`sendMessage` / `sendBatch`).
-/

namespace RuspiroMailbox

/-- MailboxChannel enum from `src/lib.rs` (logical FIFO channels). -/
inductive MailboxChannel where
  | PowerMgmt
  | FrameBuffer
  | VirtualUart
  | PropertyTagsVc
  | PropertyTagsArm
deriving DecidableEq, Repr

/-- Numeric value of a `MailboxChannel` (its `repr(u8)` discriminant). -/
def channelCode : MailboxChannel → Nat
  | .PowerMgmt => 0x0
  | .FrameBuffer => 0x1
  | .VirtualUart => 0x2
  | .PropertyTagsVc => 0x8
  | .PropertyTagsArm => 0x9

/-- MessageState enum from `src/lib.rs`. -/
inductive MessageState where
  | Request
  | ResponseOk
  | ResponseError
deriving DecidableEq, Repr

/-- Numeric value of a `MessageState` (its `repr(u32)` discriminant). -/
def messageStateCode : MessageState → Nat
  | .Request => 0x0
  | .ResponseOk => 0x80000000
  | .ResponseError => 0x80000001

/-- PropertyTagId enum from `src/propertytags/mod.rs`: one constructor per
declared property tag type in the catalog. -/
inductive PropertyTagId where
  | FirmwareRevisionGet
  | BoardModelGet
  | BoardRevisionGet
  | BoardSerialGet
  | ArmMemoryGet
  | BoardMACAddressGet
  | VcMemoryGet
  | DmaChannelsGet
  | PowerStateGet
  | PowerStateSet
  | ClockStateGet
  | ClockStateSet
  | ClockrateGet
  | ClockrateSet
  | MaxClockrateGet
  | MinClockrateGet
  | VoltageGet
  | VoltageSet
  | MaxVoltageGet
  | MinVoltageGet
  | TemperatureGet
  | MaxTemperatureGet
  | FramebufferAllocate
  | FramebufferRelease
  | BlankScreen
  | PhysicalSizeGet
  | PhysicalSizeSet
  | VirtualSizeGet
  | VirtualSizeSet
  | DepthGet
  | DepthSet
  | PixelOrderGet
  | PixelOrderSet
  | AlphaModeGet
  | AlphaModeSet
  | PitchGet
  | VirtualOffsetGet
  | VirtualOffsetSet
  | OverscanGet
  | OverscanSet
  | PaletteGet
  | PaletteSet
  | VchiqInit
deriving DecidableEq, Repr

/-- The `repr(u32)` discriminant of each `PropertyTagId` constructor, exactly
as declared in `src/propertytags/mod.rs`. -/
def tagIdCode : PropertyTagId → Nat
  | .FirmwareRevisionGet => 0x00001
  | .BoardModelGet => 0x10001
  | .BoardRevisionGet => 0x10002
  | .BoardSerialGet => 0x10004
  | .ArmMemoryGet => 0x10005
  | .BoardMACAddressGet => 0x10003
  | .VcMemoryGet => 0x10006
  | .DmaChannelsGet => 0x60001
  | .PowerStateGet => 0x20001
  | .PowerStateSet => 0x28001
  | .ClockStateGet => 0x30001
  | .ClockStateSet => 0x38001
  | .ClockrateGet => 0x30002
  | .ClockrateSet => 0x38002
  | .MaxClockrateGet => 0x30004
  | .MinClockrateGet => 0x30007
  | .VoltageGet => 0x30003
  | .VoltageSet => 0x38003
  | .MaxVoltageGet => 0x30005
  | .MinVoltageGet => 0x30008
  | .TemperatureGet => 0x30006
  | .MaxTemperatureGet => 0x3000A
  | .FramebufferAllocate => 0x40001
  | .FramebufferRelease => 0x48001
  | .BlankScreen => 0x40002
  | .PhysicalSizeGet => 0x40003
  | .PhysicalSizeSet => 0x48003
  | .VirtualSizeGet => 0x40004
  | .VirtualSizeSet => 0x48004
  | .DepthGet => 0x40005
  | .DepthSet => 0x48005
  | .PixelOrderGet => 0x40006
  | .PixelOrderSet => 0x48006
  | .AlphaModeGet => 0x40007
  | .AlphaModeSet => 0x48007
  | .PitchGet => 0x40008
  | .VirtualOffsetGet => 0x40009
  | .VirtualOffsetSet => 0x48009
  | .OverscanGet => 0x4000A
  | .OverscanSet => 0x4800A
  | .PaletteGet => 0x4000B
  | .PaletteSet => 0x4800B
  | .VchiqInit => 0x48010

/-- Byte size of the `repr(C)` REQUEST field struct of each tag, from the
`property_tag!` declarations in `src/propertytags/mod.rs` (`u32`, `ClockId`,
`DeviceId`, `VoltageId` are 4 bytes; `[u8; 6]` is 6; `[u32; 256]` is 1024). -/
def requestSize : PropertyTagId → Nat
  | .FirmwareRevisionGet => 0
  | .BoardModelGet => 0
  | .BoardRevisionGet => 0
  | .BoardSerialGet => 0
  | .ArmMemoryGet => 0
  | .BoardMACAddressGet => 0
  | .VcMemoryGet => 0
  | .DmaChannelsGet => 0
  | .PowerStateGet => 4
  | .PowerStateSet => 8
  | .ClockStateGet => 4
  | .ClockStateSet => 8
  | .ClockrateGet => 4
  | .ClockrateSet => 12
  | .MaxClockrateGet => 4
  | .MinClockrateGet => 4
  | .VoltageGet => 4
  | .VoltageSet => 8
  | .MaxVoltageGet => 4
  | .MinVoltageGet => 4
  | .TemperatureGet => 4
  | .MaxTemperatureGet => 4
  | .FramebufferAllocate => 4
  | .FramebufferRelease => 0
  | .BlankScreen => 4
  | .PhysicalSizeGet => 0
  | .PhysicalSizeSet => 8
  | .VirtualSizeGet => 0
  | .VirtualSizeSet => 8
  | .DepthGet => 0
  | .DepthSet => 4
  | .PixelOrderGet => 0
  | .PixelOrderSet => 4
  | .AlphaModeGet => 0
  | .AlphaModeSet => 4
  | .PitchGet => 0
  | .VirtualOffsetGet => 0
  | .VirtualOffsetSet => 8
  | .OverscanGet => 0
  | .OverscanSet => 16
  | .PaletteGet => 0
  | .PaletteSet => 1032
  | .VchiqInit => 4

/-- Byte size of the `repr(C)` RESPONSE field struct of each tag, from the
`property_tag!` declarations in `src/propertytags/mod.rs`. -/
def responseSize : PropertyTagId → Nat
  | .FirmwareRevisionGet => 4
  | .BoardModelGet => 4
  | .BoardRevisionGet => 4
  | .BoardSerialGet => 4
  | .ArmMemoryGet => 8
  | .BoardMACAddressGet => 6
  | .VcMemoryGet => 8
  | .DmaChannelsGet => 4
  | .PowerStateGet => 8
  | .PowerStateSet => 8
  | .ClockStateGet => 8
  | .ClockStateSet => 8
  | .ClockrateGet => 8
  | .ClockrateSet => 8
  | .MaxClockrateGet => 8
  | .MinClockrateGet => 8
  | .VoltageGet => 8
  | .VoltageSet => 8
  | .MaxVoltageGet => 8
  | .MinVoltageGet => 8
  | .TemperatureGet => 8
  | .MaxTemperatureGet => 8
  | .FramebufferAllocate => 8
  | .FramebufferRelease => 0
  | .BlankScreen => 4
  | .PhysicalSizeGet => 8
  | .PhysicalSizeSet => 8
  | .VirtualSizeGet => 8
  | .VirtualSizeSet => 8
  | .DepthGet => 4
  | .DepthSet => 4
  | .PixelOrderGet => 4
  | .PixelOrderSet => 4
  | .AlphaModeGet => 4
  | .AlphaModeSet => 4
  | .PitchGet => 4
  | .VirtualOffsetGet => 8
  | .VirtualOffsetSet => 8
  | .OverscanGet => 16
  | .OverscanSet => 16
  | .PaletteGet => 1024
  | .PaletteSet => 4
  | .VchiqInit => 4

/-- Byte size of the optional PADDING declaration of each tag: only
`BoardMACAddressGet` declares padding (`PADDING: u16`, 2 bytes). -/
def paddingSize : PropertyTagId → Nat
  | .BoardMACAddressGet => 2
  | _ => 0

/-- Size of the `repr(C)` union `<Name>Data { request, response }`: the larger
of the two overlaid views (all catalog field structs have size already a
multiple of their alignment, so no trailing union padding arises). This is the
value the generated constructor stores in `tagsize`
(`core::mem::size_of::<<Name>Data>()` in `property_tag_impl!`). -/
def tagDataSize (t : PropertyTagId) : Nat :=
  max (requestSize t) (responseSize t)

/-- Rust `core::mem::size_of` of the whole `repr(C, packed)` tag struct
generated by `property_tag!`: `tagid` + `tagsize` + `tagstate` (12 bytes)
followed by the data union and the optional padding field. -/
def sizeOfTag (t : PropertyTagId) : Nat :=
  12 + tagDataSize t + paddingSize t

/-- Every constructor of `PropertyTagId`, listed once. -/
def allTagIds : List PropertyTagId :=
  [.FirmwareRevisionGet, .BoardModelGet, .BoardRevisionGet, .BoardSerialGet,
   .ArmMemoryGet, .BoardMACAddressGet, .VcMemoryGet, .DmaChannelsGet,
   .PowerStateGet, .PowerStateSet, .ClockStateGet, .ClockStateSet,
   .ClockrateGet, .ClockrateSet, .MaxClockrateGet, .MinClockrateGet,
   .VoltageGet, .VoltageSet, .MaxVoltageGet, .MinVoltageGet,
   .TemperatureGet, .MaxTemperatureGet, .FramebufferAllocate,
   .FramebufferRelease, .BlankScreen, .PhysicalSizeGet, .PhysicalSizeSet,
   .VirtualSizeGet, .VirtualSizeSet, .DepthGet, .DepthSet, .PixelOrderGet,
   .PixelOrderSet, .AlphaModeGet, .AlphaModeSet, .PitchGet,
   .VirtualOffsetGet, .VirtualOffsetSet, .OverscanGet, .OverscanSet,
   .PaletteGet, .PaletteSet, .VchiqInit]

/-- Value of one constructed property tag: the fields of the `repr(C, packed)`
struct generated by `property_tag!` (`tagid`, `tagsize`, `tagstate`, the
request view of the `tagdata` union as the list of supplied field values, and
the bytes of the optional `tagpadding` field). -/
structure PropertyTagVal where
  ty : PropertyTagId
  tagsize : Nat
  tagstate : Nat
  request : List Nat
  padding : List Nat
deriving DecidableEq, Repr

/-- Constructor `new(request_fields...)` generated by `property_tag_impl!`:
sets `tagid` to the type's identifier, `tagsize` to
`size_of::<<Name>Data>()`, `tagstate` to `0x0`, writes the supplied values
into the request view of the data union and zero-initializes the padding
field via `init_padding!`. -/
def PropertyTagVal.new (ty : PropertyTagId) (args : List Nat) : PropertyTagVal :=
  { ty := ty
    tagsize := tagDataSize ty
    tagstate := 0x0
    request := args
    padding := List.replicate (paddingSize ty) 0 }

/-- Compile-time linked list of tags from `src/message/mailboxbatch.rs`:
`Empty` is the empty batch content, `Cons { previous, tag }` appends one tag
after all previously appended ones. -/
inductive TagCons where
  | empty
  | cons (previous : TagCons) (tag : PropertyTagVal)
deriving DecidableEq, Repr

/-- Tags of a `TagCons` in insertion order (oldest first), i.e. the order in
which the tags are laid out contiguously in the batch buffer. -/
def TagCons.toList : TagCons → List PropertyTagVal
  | .empty => []
  | .cons previous tag => previous.toList ++ [tag]

/-- Trait-resolved `FindTag` lookup of `mailboxbatch.rs`: the
`FindTag<Tag, Here>` instance returns the head tag where its type matches, the
`FindTag<Tag, Next<Pos>>` instance recurses into `previous`; `none` models the
absence of any instance (a Rust compile error at the `get_tag` call site). -/
def TagCons.findTag : TagCons → PropertyTagId → Option PropertyTagVal
  | .empty, _ => none
  | .cons previous tag, ty =>
      if tag.ty = ty then some tag else previous.findTag ty

/-- MailboxBatch struct from `src/message/mailboxbatch.rs` (`repr(C, align(16))`,
fields `msg_size`, `msg_type`, `msg_tags`, `msg_end`). -/
structure MailboxBatch where
  msg_size : Nat
  msg_type : MessageState
  msg_tags : TagCons
  msg_end : Nat
deriving DecidableEq, Repr

/-- `MailboxBatch::empty()`: size 12, state `Request`, no tags, terminator 0. -/
def MailboxBatch.empty : MailboxBatch :=
  { msg_size := 12
    msg_type := MessageState.Request
    msg_tags := TagCons.empty
    msg_end := 0 }

/-- `MailboxBatch::with_tag(tag)`: adds `size_of::<Tag>()` to `msg_size`
(`u32` wrapping addition) and conses the tag onto the linked list; `msg_type`
and `msg_end` are carried over unchanged. -/
def MailboxBatch.with_tag (b : MailboxBatch) (tag : PropertyTagVal) : MailboxBatch :=
  { msg_size := (b.msg_size + sizeOfTag tag.ty) % 2 ^ 32
    msg_type := b.msg_type
    msg_tags := TagCons.cons b.msg_tags tag
    msg_end := b.msg_end }

/-- `MailboxBatch::get_tag::<Tag, Pos>()`: type-indexed retrieval through the
`FindTag` machinery. -/
def MailboxBatch.get_tag (b : MailboxBatch) (ty : PropertyTagId) : Option PropertyTagVal :=
  b.msg_tags.findTag ty

/-- `MailboxBatch::get_state()`. -/
def MailboxBatch.get_state (b : MailboxBatch) : MessageState :=
  b.msg_type

/-- A batch built from the empty batch by one `with_tag` call per list
element, in order (the builder-style composition of `mailboxbatch.rs`). -/
def buildBatch (ts : List PropertyTagVal) : MailboxBatch :=
  ts.foldl MailboxBatch.with_tag MailboxBatch.empty

/-- MailboxMessage struct from `src/message/mailboxmessage.rs`
(`repr(C, align(16))`, fields `msg_size`, `msg_type`, `msg_tag`, `msg_end`). -/
structure MailboxMessage where
  msg_size : Nat
  msg_type : MessageState
  msg_tag : PropertyTagVal
  msg_end : Nat
deriving DecidableEq, Repr

/-- `impl From<T> for MailboxMessage<T>`: wraps one property tag in the
envelope with `msg_size = 12 + size_of::<T>()` (`u32` arithmetic), state
`Request` and terminator `0x0`. -/
def MailboxMessage.from (item : PropertyTagVal) : MailboxMessage :=
  { msg_size := (12 + sizeOfTag item.ty) % 2 ^ 32
    msg_type := MessageState.Request
    msg_tag := item
    msg_end := 0x0 }

/-- `MailboxMessage::state()`. -/
def MailboxMessage.state (m : MailboxMessage) : MessageState :=
  m.msg_type

/-- Incoming-FIFO read loop `mb_read` of `src/interface.rs`, with the sequence
of words the hardware FIFO delivers passed as a list: each word whose low
channel bits (`data & 0xF`) differ from the requested channel is discarded and
the loop continues; the first matching word is returned masked with
`0xFFFFFFF0`. An exhausted list models the busy-wait never returning. -/
def mb_read (channel : MailboxChannel) : List Nat → Option Nat
  | [] => none
  | data :: rest =>
      if Nat.land data 0xF = channelCode channel then
        some (Nat.land data 0xFFFFFFF0)
      else
        mb_read channel rest

/-- Value that `mb_write` of `src/interface.rs` writes to the submit register
`MAILBOX1_WRITE`: `(data & 0xFFFFFFF0) | ((channel as u8) & 0xF)`. -/
def mb_write (channel : MailboxChannel) (data : Nat) : Nat :=
  Nat.lor (Nat.land data 0xFFFFFFF0) (Nat.land (channelCode channel) 0xF)

/-- `send_message` of `src/interface.rs`, with the co-processor modelled as an
oracle `transport` mapping the sent buffer value to the reconstructed buffer
value read back at the same address after the exchange: the reconstructed
envelope is returned in `Ok` when its state is `ResponseOk`, and any other
state produces the transport-failure error. -/
def sendMessage (transport : MailboxMessage → MailboxMessage)
    (message : MailboxMessage) : Except String MailboxMessage :=
  let result := transport message
  match result.state with
  | MessageState.ResponseOk => Except.ok result
  | _ => Except.error "unable to send mailbox property tag message."

/-- `send_batch` of `src/interface.rs`, the batch analogue of `sendMessage`:
`Ok` exactly when the reconstructed batch's `msg_type` is `ResponseOk`. -/
def sendBatch (transport : MailboxBatch → MailboxBatch)
    (batch : MailboxBatch) : Except String MailboxBatch :=
  let result := transport batch
  match result.msg_type with
  | MessageState.ResponseOk => Except.ok result
  | _ => Except.error "unable to send mailbox property tag message."

/-! ### Helper lemmas -/

/-- Rust `data & 0xF` on a `u32` is the remainder modulo 16. -/
theorem land_fifteen (d : Nat) : Nat.land d 0xF = d % 16 := by
  have h := Nat.and_pow_two_sub_one_eq_mod d 4
  norm_num at h
  exact h

/-- Rust `data & 0xFFFF_FFF0` on a `u32` clears the low 4 bits. -/
theorem land_mask_high (d : Nat) (hd : d < 2 ^ 32) :
    Nat.land d 0xFFFFFFF0 = d - d % 16 := by
  have key : Nat.land d 0xFFFFFFF0 = 16 * (d / 16) := by
    have hmask : (0xFFFFFFF0 : Nat) = (2 ^ 28 - 1) <<< 4 := by
      rw [Nat.shiftLeft_eq]; norm_num
    have hrhs : 16 * (d / 16) = (d >>> 4) <<< 4 := by
      rw [Nat.shiftRight_eq_div_pow, Nat.shiftLeft_eq]
      norm_num
      ring
    show d &&& 0xFFFFFFF0 = 16 * (d / 16)
    rw [hmask, hrhs]
    apply Nat.eq_of_testBit_eq
    intro i
    rw [Nat.testBit_and, Nat.testBit_shiftLeft, Nat.testBit_shiftLeft, Nat.testBit_shiftRight,
      Nat.testBit_two_pow_sub_one]
    by_cases h4 : 4 ≤ i
    · have h4' : i ≥ 4 := h4
      simp only [h4', decide_True, Bool.true_and]
      by_cases h32 : i < 32
      · have hi28 : i - 4 < 28 := by omega
        have h44 : 4 + (i - 4) = i := by omega
        simp [hi28, h44]
      · have hbit : d.testBit i = false := Nat.testBit_lt_two_pow (by
          calc d < 2 ^ 32 := hd
          _ ≤ 2 ^ i := Nat.pow_le_pow_right (by norm_num) (by omega))
        have hbit2 : d.testBit (4 + (i - 4)) = false := by
          have h44 : 4 + (i - 4) = i := by omega
          rw [h44, hbit]
        simp [hbit, hbit2]
    · have h4n : ¬ (i ≥ 4) := h4
      simp [h4n]
  omega

/-- The channel discriminant is below 16, so `(channel as u8) & 0xF` is the
channel discriminant itself. -/
theorem land_channelCode (channel : MailboxChannel) :
    Nat.land (channelCode channel) 0xF = channelCode channel := by
  cases channel <;> decide

/-- Every tag type of the catalog is listed in `allTagIds`. -/
theorem mem_allTagIds (t : PropertyTagId) : t ∈ allTagIds := by
  cases t <;> decide

/-- The list `allTagIds` has no duplicates. -/
theorem allTagIds_nodup : allTagIds.Nodup := by decide

/-- Concrete bound on the encoded size of any single catalog tag
(the largest is `PaletteSet` at 1044 bytes). -/
theorem sizeOfTag_le (t : PropertyTagId) : sizeOfTag t ≤ 1044 := by
  cases t <;> decide

/-- Concrete bound on the total encoded size of the entire catalog: small
enough that no `u32` size accumulation can wrap. -/
theorem allTagIds_total_size_small :
    12 + (allTagIds.map sizeOfTag).sum < 2 ^ 32 := by decide

/-- A sum of `sizeOfTag` over distinct tag types is at most the sum over the
whole catalog. -/
theorem sum_sizeOfTag_le_of_nodup (tys : List PropertyTagId) (h : tys.Nodup) :
    (tys.map sizeOfTag).sum ≤ (allTagIds.map sizeOfTag).sum := by
  have hsub : tys ⊆ allTagIds := fun t _ => mem_allTagIds t
  have hsp : List.Subperm tys allTagIds := h.subperm hsub
  obtain ⟨l, hperm, hsl⟩ := hsp
  have hpm : List.Perm (l.map sizeOfTag) (tys.map sizeOfTag) := hperm.map sizeOfTag
  have hsm : List.Sublist (l.map sizeOfTag) (allTagIds.map sizeOfTag) := hsl.map sizeOfTag
  calc (tys.map sizeOfTag).sum = (l.map sizeOfTag).sum := hpm.sum_eq.symm
  _ ≤ (allTagIds.map sizeOfTag).sum := hsm.sum_le_sum (fun a _ => Nat.zero_le a)

/-- Folding `with_tag` never touches the header state or the terminator. -/
theorem foldl_with_tag_header (ts : List PropertyTagVal) (b : MailboxBatch) :
    (ts.foldl MailboxBatch.with_tag b).msg_type = b.msg_type ∧
    (ts.foldl MailboxBatch.with_tag b).msg_end = b.msg_end := by
  induction ts generalizing b with
  | nil => exact ⟨rfl, rfl⟩
  | cons t ts ih =>
      simpa [List.foldl_cons, MailboxBatch.with_tag] using ih (b.with_tag t)

/-- Folding `with_tag` accumulates the tag sizes, with no `u32` wrap as long
as the accumulated total stays below `2 ^ 32`. -/
theorem foldl_with_tag_size (ts : List PropertyTagVal) (b : MailboxBatch)
    (hb : b.msg_size + (ts.map (fun t => sizeOfTag t.ty)).sum < 2 ^ 32) :
    (ts.foldl MailboxBatch.with_tag b).msg_size =
      b.msg_size + (ts.map (fun t => sizeOfTag t.ty)).sum := by
  induction ts generalizing b with
  | nil => simp
  | cons t ts ih =>
      have hstep : (b.with_tag t).msg_size = b.msg_size + sizeOfTag t.ty := by
        simp only [MailboxBatch.with_tag]
        apply Nat.mod_eq_of_lt
        simp only [List.map_cons, List.sum_cons] at hb
        omega
      have hrest : (b.with_tag t).msg_size +
          (ts.map (fun t => sizeOfTag t.ty)).sum < 2 ^ 32 := by
        rw [hstep]
        simp only [List.map_cons, List.sum_cons] at hb
        omega
      calc (((t :: ts)).foldl MailboxBatch.with_tag b).msg_size
          = (ts.foldl MailboxBatch.with_tag (b.with_tag t)).msg_size := by
            rw [List.foldl_cons]
      _ = (b.with_tag t).msg_size + (ts.map (fun t => sizeOfTag t.ty)).sum := ih _ hrest
      _ = b.msg_size + ((t :: ts).map (fun t => sizeOfTag t.ty)).sum := by
            rw [hstep]
            simp [Nat.add_assoc]

/-! ### Claim theorems -/

/-- Claim C1 (code bug): the active `MailboxBatch::with_tag` has no
duplicate-type constraint. Appending a second `ClockrateGet` to a batch that
already holds one is accepted, and the resulting batch holds two tags of the
identical type (its size even accounts for both), so construction does permit
two tags of identical type to coexist — no compile-time rejection and no
Duplicate-Tag error occurs (only the dead `_message.rs` variant checks). -/
theorem with_tag_accepts_duplicate_tag_type :
    (((MailboxBatch.empty.with_tag
        (PropertyTagVal.new PropertyTagId.ClockrateGet [0x4])).with_tag
        (PropertyTagVal.new PropertyTagId.ClockrateGet [0x4])).msg_tags.toList.map
        PropertyTagVal.ty).count PropertyTagId.ClockrateGet = 2 ∧
    ((MailboxBatch.empty.with_tag
        (PropertyTagVal.new PropertyTagId.ClockrateGet [0x4])).with_tag
        (PropertyTagVal.new PropertyTagId.ClockrateGet [0x4])).msg_size =
      12 + 2 * sizeOfTag PropertyTagId.ClockrateGet := by
  decide

/-- Claim C2 (counterexample): `BoardMACAddressGet::new()` sets `tag_size` to
`size_of::<BoardMACAddressGetData>() = 6`, which is not a multiple of 4 (the
two declared padding bytes are outside the `tag_size` field). -/
theorem boardMACAddressGet_tagsize_not_mult_four :
    ¬ ((PropertyTagVal.new PropertyTagId.BoardMACAddressGet []).tagsize % 4 = 0) := by
  decide

/-- Claim C2 (amended): for every catalog tag type other than
`BoardMACAddressGet`, the `tag_size` set by `new()` is a multiple of 4;
for every catalog tag type, the payload area plus its declared padding — and
hence the whole encoded tag — is a multiple of 4. -/
theorem tagsize_alignment (ty : PropertyTagId) (args : List Nat) :
    (ty ≠ PropertyTagId.BoardMACAddressGet →
      (PropertyTagVal.new ty args).tagsize % 4 = 0) ∧
    ((PropertyTagVal.new ty args).tagsize + paddingSize ty) % 4 = 0 ∧
    sizeOfTag ty % 4 = 0 := by
  have hts : (PropertyTagVal.new ty args).tagsize = tagDataSize ty := rfl
  rw [hts]
  cases ty <;> decide

/-- Claim C2 witness: the amended statement evaluated at `ClockrateGet`. -/
theorem tagsize_alignment_witness :
    (PropertyTagVal.new PropertyTagId.ClockrateGet [0x4]).tagsize % 4 = 0 :=
  (tagsize_alignment PropertyTagId.ClockrateGet [0x4]).1 (by decide)

/-- Claim C3: `send_message` and `send_batch` return `Ok` with the
reconstructed envelope exactly when the reconstructed envelope's state is
`ResponseOk`; any other state — `ResponseError` included — yields the
transport-failure error instead. -/
theorem send_classifies_by_message_state
    (trM : MailboxMessage → MailboxMessage) (m : MailboxMessage)
    (trB : MailboxBatch → MailboxBatch) (b : MailboxBatch) :
    (sendMessage trM m = Except.ok (trM m) ↔
        (trM m).msg_type = MessageState.ResponseOk) ∧
    ((trM m).msg_type ≠ MessageState.ResponseOk →
        sendMessage trM m =
          Except.error "unable to send mailbox property tag message.") ∧
    (∀ r, sendMessage trM m = Except.ok r → r = trM m) ∧
    (sendBatch trB b = Except.ok (trB b) ↔
        (trB b).msg_type = MessageState.ResponseOk) ∧
    ((trB b).msg_type ≠ MessageState.ResponseOk →
        sendBatch trB b =
          Except.error "unable to send mailbox property tag message.") ∧
    (∀ r, sendBatch trB b = Except.ok r → r = trB b) := by
  unfold sendMessage sendBatch MailboxMessage.state
  rcases hm : (trM m).msg_type <;> rcases hb : (trB b).msg_type <;>
    simp [hm, hb]

/-- Claim C3 witness: a transport that hands back the buffer with
`message_state = ResponseError` makes `send_message` return the
transport-failure error rather than `Ok`. -/
theorem send_classifies_by_message_state_witness :
    sendMessage (fun m => { m with msg_type := MessageState.ResponseError })
        (MailboxMessage.from (PropertyTagVal.new PropertyTagId.ClockrateGet [0x4])) =
      Except.error "unable to send mailbox property tag message." :=
  (send_classifies_by_message_state
      (fun m => { m with msg_type := MessageState.ResponseError })
      (MailboxMessage.from (PropertyTagVal.new PropertyTagId.ClockrateGet [0x4]))
      id MailboxBatch.empty).2.1 (by decide)

/-- Claim C4: the empty batch has `total_size` 12, and a batch built by
appending any sequence of distinct-typed tags has `total_size` equal to 12
plus the sum of the appended tags' encoded sizes; in particular appending the
8-byte-payload tag `ClockrateGet` (12-byte tag header + 8-byte payload) to the
empty batch gives `total_size` 32. -/
theorem batch_total_size (ts : List PropertyTagVal)
    (hnd : (ts.map PropertyTagVal.ty).Nodup) :
    MailboxBatch.empty.msg_size = 12 ∧
    (buildBatch ts).msg_size = 12 + (ts.map (fun t => sizeOfTag t.ty)).sum ∧
    (MailboxBatch.empty.with_tag
        (PropertyTagVal.new PropertyTagId.ClockrateGet [0x4])).msg_size = 32 := by
  refine ⟨rfl, ?_, by decide⟩
  have hsum : (ts.map (fun t => sizeOfTag t.ty)).sum =
      ((ts.map PropertyTagVal.ty).map sizeOfTag).sum := by
    rw [List.map_map, Function.comp_def]
  have hle : ((ts.map PropertyTagVal.ty).map sizeOfTag).sum ≤
      (allTagIds.map sizeOfTag).sum :=
    sum_sizeOfTag_le_of_nodup (ts.map PropertyTagVal.ty) hnd
  have hlt : MailboxBatch.empty.msg_size +
      (ts.map (fun t => sizeOfTag t.ty)).sum < 2 ^ 32 := by
    have htotal := allTagIds_total_size_small
    have h12 : MailboxBatch.empty.msg_size = 12 := rfl
    rw [h12, hsum]
    omega
  exact foldl_with_tag_size ts MailboxBatch.empty hlt

/-- Claim C4 witness: two distinct tags appended to the empty batch. -/
theorem batch_total_size_witness :
    (buildBatch [PropertyTagVal.new PropertyTagId.ClockrateGet [0x4],
        PropertyTagVal.new PropertyTagId.MaxClockrateGet [0x3]]).msg_size =
      12 + ([PropertyTagVal.new PropertyTagId.ClockrateGet [0x4],
        PropertyTagVal.new PropertyTagId.MaxClockrateGet [0x3]].map
          (fun t => sizeOfTag t.ty)).sum :=
  (batch_total_size _ (by decide)).2.1

/-- Claim C5: `with_tag` appends the new tag after all previously appended
tags, leaving their values and relative order unchanged, and `get_tag` for any
type other than the newly appended one returns exactly what it returned before
the append — so a previously appended tag is retrieved unchanged regardless of
later appends. -/
theorem with_tag_preserves_existing_tags
    (b : MailboxBatch) (t : PropertyTagVal) (ty : PropertyTagId)
    (h : ty ≠ t.ty) :
    (b.with_tag t).msg_tags.toList = b.msg_tags.toList ++ [t] ∧
    (b.with_tag t).get_tag ty = b.get_tag ty := by
  constructor
  · rfl
  · simp [MailboxBatch.get_tag, MailboxBatch.with_tag, TagCons.findTag, Ne.symm h]

/-- Claim C5 witness: after appending `MaxClockrateGet`, retrieving
`ClockrateGet` yields the same result as before the append. -/
theorem with_tag_preserves_existing_tags_witness :
    ((MailboxBatch.empty.with_tag
        (PropertyTagVal.new PropertyTagId.ClockrateGet [0x4])).with_tag
        (PropertyTagVal.new PropertyTagId.MaxClockrateGet [0x3])).get_tag
        PropertyTagId.ClockrateGet =
      (MailboxBatch.empty.with_tag
        (PropertyTagVal.new PropertyTagId.ClockrateGet [0x4])).get_tag
        PropertyTagId.ClockrateGet :=
  (with_tag_preserves_existing_tags _ _ _ (by decide)).2

/-- Claim C6: the read loop returns precisely the first arriving FIFO word
whose low channel bits match the requested channel, with the low 4 bits
cleared; every earlier word tagged for a different channel is discarded and
waiting continues (an exhausted stream, `none`, models waiting forever). -/
theorem mb_read_skips_foreign_channels
    (channel : MailboxChannel) (fifo : List Nat)
    (hbound : ∀ x ∈ fifo, x < 2 ^ 32) :
    mb_read channel fifo =
      (fifo.find? (fun d => d % 16 == channelCode channel)).map
        (fun d => d - d % 16) := by
  induction fifo with
  | nil => rfl
  | cons d rest ih =>
      have hd : d < 2 ^ 32 := hbound d (List.mem_cons_self d rest)
      have hrest : ∀ x ∈ rest, x < 2 ^ 32 := fun x hx =>
        hbound x (List.mem_cons_of_mem d hx)
      by_cases hmatch : d % 16 = channelCode channel
      · rw [mb_read, land_fifteen, if_pos hmatch, land_mask_high d hd]
        rw [List.find?_cons_of_pos _ (by simpa using hmatch)]
        rfl
      · rw [mb_read, land_fifteen, if_neg hmatch]
        rw [List.find?_cons_of_neg _ (by simpa using hmatch)]
        exact ih hrest

/-- Claim C6 witness: a word tagged for channel 9 arriving before the channel-8
word is skipped, and the channel-8 word is returned masked. -/
theorem mb_read_skips_foreign_channels_witness :
    mb_read MailboxChannel.PropertyTagsVc [0x1009, 0x2008] =
      (([0x1009, 0x2008] : List Nat).find?
        (fun d => d % 16 == channelCode MailboxChannel.PropertyTagsVc)).map
        (fun d => d - d % 16) :=
  mb_read_skips_foreign_channels MailboxChannel.PropertyTagsVc [0x1009, 0x2008]
    (by decide)

/-- Claim C7: for every catalog tag type and every choice of request values,
the generated constructor `new` produces a tag whose `tagid` is the type's
fixed identifier, whose `tagsize` is the size of the request/response overlay
area, whose `tagstate` is 0, whose request view holds exactly the supplied
values, and whose declared padding bytes are all zero. -/
theorem property_tag_new_fields (ty : PropertyTagId) (args : List Nat) :
    (PropertyTagVal.new ty args).ty = ty ∧
    tagIdCode (PropertyTagVal.new ty args).ty = tagIdCode ty ∧
    (PropertyTagVal.new ty args).tagsize = tagDataSize ty ∧
    (PropertyTagVal.new ty args).tagstate = 0 ∧
    (PropertyTagVal.new ty args).request = args ∧
    (PropertyTagVal.new ty args).padding.length = paddingSize ty ∧
    ((PropertyTagVal.new ty args).padding.all (fun b => b == 0)) = true := by
  refine ⟨rfl, rfl, rfl, rfl, rfl, List.length_replicate _ _, ?_⟩
  simp [PropertyTagVal.new]

/-- Claim C8: wrapping a property tag into a `MailboxMessage` envelope sets
`total_size` to 12 plus the encoded size of the tag type, the state to
`Request`, embeds the tag unchanged, and sets the trailing terminator to 0. -/
theorem mailbox_message_from_tag (t : PropertyTagVal) :
    (MailboxMessage.from t).msg_size = 12 + sizeOfTag t.ty ∧
    (MailboxMessage.from t).msg_type = MessageState.Request ∧
    (MailboxMessage.from t).msg_tag = t ∧
    (MailboxMessage.from t).msg_end = 0 := by
    refine ⟨?_, rfl, rfl, rfl⟩
    show (12 + sizeOfTag t.ty) % 2 ^ 32 = 12 + sizeOfTag t.ty
    have h := sizeOfTag_le t.ty
    apply Nat.mod_eq_of_lt
    omega

/-- Claim C9: the word passed to the submit register is the buffer address
with its low 4 bits cleared, OR'd with the channel number; and any word the
read loop returns is a received word with its low 4 bits cleared. -/
theorem mb_write_and_read_mask_low_bits
    (channel : MailboxChannel) (data : Nat) (hdata : data < 2 ^ 32) :
    mb_write channel data =
      Nat.lor (data - data % 16) (channelCode channel) ∧
    (∀ fifo v, (∀ x ∈ fifo, x < 2 ^ 32) → mb_read channel fifo = some v →
      ∃ d ∈ fifo, d % 16 = channelCode channel ∧ v = d - d % 16) := by
  constructor
  · rw [mb_write, land_mask_high data hdata, land_channelCode]
  · intro fifo v hbound hread
    induction fifo with
    | nil => simp [mb_read] at hread
    | cons d rest ih =>
        have hd : d < 2 ^ 32 := hbound d (List.mem_cons_self d rest)
        have hrest : ∀ x ∈ rest, x < 2 ^ 32 := fun x hx =>
          hbound x (List.mem_cons_of_mem d hx)
        rw [mb_read, land_fifteen] at hread
        by_cases hmatch : d % 16 = channelCode channel
        · rw [if_pos hmatch, land_mask_high d hd] at hread
          exact ⟨d, List.mem_cons_self d rest, hmatch, (Option.some_inj.mp hread).symm⟩
        · rw [if_neg hmatch] at hread
          obtain ⟨x, hx, hxc, hxv⟩ := ih hrest hread
          exact ⟨x, List.mem_cons_of_mem d hx, hxc, hxv⟩

/-- Claim C9 witness: submitting address `0x127` on channel 8 writes
`0x120 ||| 8`. -/
theorem mb_write_and_read_mask_low_bits_witness :
    mb_write MailboxChannel.PropertyTagsVc 0x127 =
      Nat.lor (0x127 - 0x127 % 16) (channelCode MailboxChannel.PropertyTagsVc) :=
  (mb_write_and_read_mask_low_bits MailboxChannel.PropertyTagsVc 0x127 (by decide)).1

/-- Claim C10: every batch reachable from `empty()` by `with_tag` calls keeps
`msg_type = Request` (also via `get_state`) and terminator `msg_end = 0`:
`with_tag` changes only the size and the tag list. -/
theorem batch_header_invariant (ts : List PropertyTagVal) :
    (buildBatch ts).msg_type = MessageState.Request ∧
    (buildBatch ts).get_state = MessageState.Request ∧
    (buildBatch ts).msg_end = 0 := by
  obtain ⟨h1, h2⟩ := foldl_with_tag_header ts MailboxBatch.empty
  exact ⟨h1, h1, h2⟩

end RuspiroMailbox
